import Mathlib

/-!
Shallow embedding of the double-mapped ring buffer of `src/ringbuf.rs`.

The physical page range of `buf_size` bytes is modelled as a total function
`Nat → Nat` (byte values); the double mapping means that a store through
virtual offset `v` (for `v < 2 * buf_size`) lands at physical offset
`v % buf_size`, and a load from virtual offset `v` reads physical offset
`v % buf_size`.  All virtual offsets the code ever touches satisfy
`v < 2 * buf_size` under the bookkeeping invariant, so the `% buf_size`
identification is exactly the behaviour of the MMU trick.

The Rust methods take `&mut self`; each is embedded as a function from the
receiver state to a pair of (returned `Result`, successor state), so that
"no mutation on failure" is the checkable statement that the successor
state equals the receiver.
-/

/-- Physical effect of `std::ptr::copy(raw.as_ptr(), buf.add(pos), raw.len())`
through the double mapping: byte `j` of `raw` is stored at physical offset
`(pos + j) % cap`.  The copy is sequential, so later bytes overwrite earlier
ones on (impossible under the invariant) collisions, exactly like `memcpy`. -/
def copyToBuf (cap : Nat) (data : Nat → Nat) (pos : Nat) (raw : List Nat) : Nat → Nat :=
  match raw with
  | [] => data
  | b :: rest => copyToBuf cap (Function.update data (pos % cap) b) (pos + 1) rest

/-- State of `RingBuf` (src/ringbuf.rs, lines 24-35).  `data` is the physical
page range backing both mappings; `buf_size` is the capacity in bytes
(`NonZeroUsize` in the source, positivity is carried by the invariant
`RingBuf.Inv`).  The raw pointer `buf` and the owned fd have no state beyond
the bytes and are not part of the functional state. -/
structure RingBuf where
  buf_size : Nat
  data : Nat → Nat
  contents_size : Nat
  head : Nat
  tail : Nat

/-- Buffer error enum of the source (src/ringbuf.rs, lines 182-185): it has a
single variant `TooSmall`, used both for a write that does not fit and a read
that asks for more than is resident. -/
inductive BufError where
  | TooSmall
deriving DecidableEq

/-- Error enum of the source (src/ringbuf.rs, lines 144-148): either a wrapped
OS failure (`nix::Error`, an errno, modelled as a `Nat`) or a buffer error. -/
inductive Error where
  | Nix (errno : Nat)
  | Ours (e : BufError)
deriving DecidableEq

/-- Embedding of `RingBuf::write` (src/ringbuf.rs, lines 84-95).  If
`raw.len() > buf_size - contents_size` (usize subtraction; the invariant keeps
`contents_size ≤ buf_size` so it never underflows) the call fails with
`Err(BufError::TooSmall)` before touching anything; otherwise the bytes are
copied linearly at virtual offset `tail`, then `tail` advances modulo
`buf_size` and `contents_size` grows. -/
def RingBuf.write (rb : RingBuf) (raw : List Nat) : Except Error Unit × RingBuf :=
  if raw.length > rb.buf_size - rb.contents_size then
    (Except.error (Error.Ours BufError.TooSmall), rb)
  else
    (Except.ok (),
      { rb with
        data := copyToBuf rb.buf_size rb.data rb.tail raw
        tail := (rb.tail + raw.length) % rb.buf_size
        contents_size := rb.contents_size + raw.length })

/-- The view `std::slice::from_raw_parts_mut(buf.add(head), num_bytes)`
returned by `RingBuf::read`, snapshotted at the moment of the call: byte `i`
of the view is the byte at virtual offset `head + i`, i.e. physical offset
`(head + i) % buf_size`. -/
def RingBuf.readView (rb : RingBuf) (num_bytes : Nat) : List Nat :=
  (List.range num_bytes).map fun i => rb.data ((rb.head + i) % rb.buf_size)

/-- Embedding of `RingBuf::read` (src/ringbuf.rs, lines 99-110).  If
`num_bytes > contents_size` the call fails with `Err(BufError::TooSmall)`
before touching anything; otherwise the view over the `num_bytes` bytes
starting at `head` is returned, `head` advances modulo `buf_size` and
`contents_size` shrinks. -/
def RingBuf.read (rb : RingBuf) (num_bytes : Nat) : Except Error (List Nat) × RingBuf :=
  if num_bytes > rb.contents_size then
    (Except.error (Error.Ours BufError.TooSmall), rb)
  else
    (Except.ok (rb.readView num_bytes),
      { rb with
        head := (rb.head + num_bytes) % rb.buf_size
        contents_size := rb.contents_size - num_bytes })

/-- A type usable with the typed wrappers: a fixed `size` (Rust
`size_of::<T>()`), its raw byte representation `as_u8_slice` (the unsafe
free function of src/ringbuf.rs, lines 140-142), and `fromBytes`, the
reinterpretation of a raw byte range back into a value (the `transmute` in
`read_typed`).  The two laws say the layout is stable and padding-free: the
representation has exactly `size` bytes and reinterpreting a representation
recovers the value bit-identically. -/
structure PodType (α : Type) where
  size : Nat
  as_u8_slice : α → List Nat
  fromBytes : List Nat → α
  length_as_u8_slice : ∀ v, (as_u8_slice v).length = size
  fromBytes_as_u8_slice : ∀ v, fromBytes (as_u8_slice v) = v

/-- Embedding of `RingBuf::write_typed` (src/ringbuf.rs, lines 112-117):
reinterpret the value as raw bytes and delegate to `write`. -/
def RingBuf.write_typed {α : Type} (rb : RingBuf) (pod : PodType α) (value : α) :
    Except Error Unit × RingBuf :=
  rb.write (pod.as_u8_slice value)

/-- Embedding of `RingBuf::read_typed` (src/ringbuf.rs, lines 119-122):
`read(size_of::<T>())` and reinterpret the returned view as a value. -/
def RingBuf.read_typed {α : Type} (rb : RingBuf) (pod : PodType α) :
    Except Error α × RingBuf :=
  ((rb.read pod.size).1.map pod.fromBytes, (rb.read pod.size).2)

/-- The `u8`-like instance of `PodType`: one byte, identity layout. -/
def podU8 : PodType (Fin 256) where
  size := 1
  as_u8_slice := fun v => [v.val]
  fromBytes := fun l => ⟨l.headD 0 % 256, Nat.mod_lt _ (by norm_num)⟩
  length_as_u8_slice := fun _ => rfl
  fromBytes_as_u8_slice := fun v => Fin.ext (Nat.mod_eq_of_lt v.isLt)

/-- Outcomes of the five OS calls made by `RingBuf::new`, in program order:
`memfd_create`, `ftruncate`, `mmap_anonymous` (the 2 x buf_size reservation),
and the two fixed-address `mmap`s over the reservation.  Each either succeeds
or fails with an errno. -/
structure OsCalls where
  memfd_create : Except Nat Unit
  ftruncate : Except Nat Unit
  mmap_anonymous : Except Nat Unit
  mmap_first : Except Nat Unit
  mmap_second : Except Nat Unit

/-- Result of `RingBuf::new`.  `panicked` models the `.expect` on
`NonZeroUsize::new(num_pages)`.  `failed e fdOpen mappingLive` models an early
`?` return with error `e`, recording which acquired OS resources are still
held after the return, per Rust drop semantics: the `OwnedFd` local is
dropped on every early return (so the backing fd is always closed,
`fdOpen = false`), while the reservation and any fixed mappings established
over it live at a raw pointer with no destructor and are never unmapped on
the error paths (`mappingLive = true` once `mmap_anonymous` has succeeded). -/
inductive NewResult where
  | panicked
  | failed (e : Error) (fdOpen : Bool) (mappingLive : Bool)
  | ok (rb : RingBuf)

/-- Embedding of `RingBuf::new` (src/ringbuf.rs, lines 38-82) over an oracle
for the five OS calls.  `num_pages = 0` panics in the `.expect`; each OS
failure returns `Err(Error::Nix(errno))` via `?`; on success the buffer
starts zero-filled (memfd storage is zero-initialized) with
`head = tail = contents_size = 0` and `buf_size = num_pages * 4096`. -/
def RingBuf.new (num_pages : Nat) (os : OsCalls) : NewResult :=
  if num_pages = 0 then NewResult.panicked
  else
    match os.memfd_create with
    | Except.error e => NewResult.failed (Error.Nix e) false false
    | Except.ok _ =>
      match os.ftruncate with
      | Except.error e => NewResult.failed (Error.Nix e) false false
      | Except.ok _ =>
        match os.mmap_anonymous with
        | Except.error e => NewResult.failed (Error.Nix e) false false
        | Except.ok _ =>
          match os.mmap_first with
          | Except.error e => NewResult.failed (Error.Nix e) false true
          | Except.ok _ =>
            match os.mmap_second with
            | Except.error e => NewResult.failed (Error.Nix e) false true
            | Except.ok _ =>
              NewResult.ok
                { buf_size := num_pages * 4096
                  data := fun _ => 0
                  contents_size := 0
                  head := 0
                  tail := 0 }

/-- The bookkeeping invariant of the claims: `contents_size` between `0` and
`buf_size`, both cursors inside `[0, buf_size)`, and
`tail = (head + contents_size) % buf_size`.  (`0 ≤ contents_size` is
automatic over `Nat`.)  It holds for every state `new` constructs and is
preserved by `write` and `read`. -/
def RingBuf.Inv (rb : RingBuf) : Prop :=
  rb.contents_size ≤ rb.buf_size ∧ rb.head < rb.buf_size ∧ rb.tail < rb.buf_size ∧
    rb.tail = (rb.head + rb.contents_size) % rb.buf_size

/-- An oracle where every OS call succeeds. -/
def osAllOk : OsCalls where
  memfd_create := Except.ok ()
  ftruncate := Except.ok ()
  mmap_anonymous := Except.ok ()
  mmap_first := Except.ok ()
  mmap_second := Except.ok ()

/-- An oracle where the first fixed-address `mmap` fails with `ENOMEM` (12)
after the 2 x buf_size reservation was established. -/
def osMmapFirstFails : OsCalls where
  memfd_create := Except.ok ()
  ftruncate := Except.ok ()
  mmap_anonymous := Except.ok ()
  mmap_first := Except.error 12
  mmap_second := Except.ok ()

/-- The state constructed by a fully successful `new 1`. -/
def rbInit : RingBuf where
  buf_size := 4096
  data := fun _ => 0
  contents_size := 0
  head := 0
  tail := 0

/-- A reachable one-page buffer holding one unread byte of value 7 at
physical offset 0 (reached from `rbInit` by writing `[7]`). -/
def rbOneByte : RingBuf where
  buf_size := 4096
  data := fun k => if k = 0 then 7 else 0
  contents_size := 1
  head := 0
  tail := 1

/-- A reachable completely full one-page buffer (reached from `rbInit` by
writing 4096 bytes of value 0). -/
def rbFull : RingBuf where
  buf_size := 4096
  data := fun _ => 0
  contents_size := 4096
  head := 0
  tail := 0

/-- A reachable empty one-page buffer whose cursors sit two bytes before the
capacity boundary, so that a short write and the following read cross the
boundary of the double-mapped region. -/
def rbNearEnd : RingBuf where
  buf_size := 4096
  data := fun _ => 0
  contents_size := 0
  head := 4094
  tail := 4094

/-- A reachable one-page buffer with exactly one free byte (reached from
`rbInit` by writing 4095 bytes of value 0). -/
def rbAlmostFull : RingBuf where
  buf_size := 4096
  data := fun _ => 0
  contents_size := 4095
  head := 0
  tail := 4095

/-! Helper lemmas about the physical copy and the read view. -/

/-- A linear copy leaves every physical offset it does not target unchanged. -/
theorem copyToBuf_untouched (cap : Nat) (raw : List Nat) :
    ∀ (data : Nat → Nat) (pos k : Nat),
      (∀ j, j < raw.length → (pos + j) % cap ≠ k) →
      copyToBuf cap data pos raw k = data k := by
  induction raw with
  | nil => intro data pos k _; rfl
  | cons b rest ih =>
    intro data pos k h
    have hb : pos % cap ≠ k := by
      have h0 := h 0 (Nat.succ_pos _)
      simpa using h0
    have hrest : ∀ j, j < rest.length → (pos + 1 + j) % cap ≠ k := by
      intro j hj
      have hj1 := h (j + 1) (by simpa using Nat.succ_lt_succ hj)
      have e : pos + (j + 1) = pos + 1 + j := by omega
      rwa [e] at hj1
    show copyToBuf cap (Function.update data (pos % cap) b) (pos + 1) rest k = data k
    rw [ih _ _ _ hrest]
    exact Function.update_noteq (Ne.symm hb) _ _

/-- A linear copy of at most `cap` bytes starting at `pos` stores byte `i` of
`raw` at physical offset `(pos + i) % cap`: the targeted offsets are pairwise
distinct, so no later byte of the same copy overwrites an earlier one. -/
theorem copyToBuf_get (cap : Nat) (raw : List Nat) :
    ∀ (data : Nat → Nat) (pos i : Nat), i < raw.length → raw.length ≤ cap →
      copyToBuf cap data pos raw ((pos + i) % cap) = raw.getD i 0 := by
  induction raw with
  | nil => intro _ _ i hi _; exact absurd hi (Nat.not_lt_zero i)
  | cons b rest ih =>
    intro data pos i hi hle
    have hlen : rest.length + 1 ≤ cap := by simpa using hle
    match i with
    | 0 =>
      show copyToBuf cap (Function.update data (pos % cap) b) (pos + 1) rest
          ((pos + 0) % cap) = (b :: rest).getD 0 0
      have huntouched : ∀ j, j < rest.length → (pos + 1 + j) % cap ≠ (pos + 0) % cap := by
        intro j hj hcontra
        rw [Nat.add_zero] at hcontra
        have e : pos + 1 + j = pos + (1 + j) := by omega
        rw [e] at hcontra
        have hmod : pos ≡ pos + (1 + j) [MOD cap] := hcontra.symm
        have hdvd : cap ∣ pos + (1 + j) - pos :=
          (Nat.modEq_iff_dvd' (Nat.le_add_right _ _)).mp hmod
        have hdvd2 : cap ∣ 1 + j := by simpa using hdvd
        have hge : cap ≤ 1 + j := Nat.le_of_dvd (by omega) hdvd2
        omega
      rw [copyToBuf_untouched cap rest _ _ _ huntouched, Nat.add_zero, Function.update_same]
      rfl
    | k + 1 =>
      show copyToBuf cap (Function.update data (pos % cap) b) (pos + 1) rest
          ((pos + (k + 1)) % cap) = (b :: rest).getD (k + 1) 0
      have e : pos + (k + 1) = pos + 1 + k := by omega
      rw [e, List.getD_cons_succ]
      exact ih _ _ k (Nat.lt_of_succ_lt_succ hi) (Nat.le_of_succ_le hlen)

/-- The view returned by a successful read has exactly the requested length. -/
theorem readView_length (rb : RingBuf) (n : Nat) : (rb.readView n).length = n := by
  simp [RingBuf.readView]

/-- Byte `i` of the view returned by a successful read is the byte at
physical offset `(head + i) % buf_size`. -/
theorem readView_getD (rb : RingBuf) (n i : Nat) (hi : i < n) :
    (rb.readView n).getD i 0 = rb.data ((rb.head + i) % rb.buf_size) := by
  have hlen : i < (rb.readView n).length := by simpa [RingBuf.readView] using hi
  rw [List.getD_eq_getElem _ _ hlen]
  simp [RingBuf.readView]

/-- A successful `new` can only have taken the all-calls-succeed path, and the
returned state is the freshly initialized zero-filled buffer. -/
theorem new_ok_eq (np : Nat) (os : OsCalls) (rb : RingBuf)
    (h : RingBuf.new np os = NewResult.ok rb) :
    np ≠ 0 ∧
      rb = { buf_size := np * 4096, data := fun _ => 0, contents_size := 0,
             head := 0, tail := 0 } := by
  by_cases hnp : np = 0
  · simp [RingBuf.new, hnp] at h
  · obtain ⟨mc, ft, ma, m1, m2⟩ := os
    cases mc <;> cases ft <;> cases ma <;> cases m1 <;> cases m2 <;>
      simp [RingBuf.new, hnp] at h
    exact ⟨hnp, h.symm⟩

/-- C2: `write` fails with the insufficient-space buffer error exactly when
`raw.length > buf_size - contents_size`, and a failing `write` leaves the
whole state — `head`, `tail`, `contents_size` and the bytes — unchanged. -/
theorem write_toosmall_iff_and_noop (rb : RingBuf) (raw : List Nat) :
    ((rb.write raw).1 = Except.error (Error.Ours BufError.TooSmall) ↔
      raw.length > rb.buf_size - rb.contents_size) ∧
    (raw.length > rb.buf_size - rb.contents_size → (rb.write raw).2 = rb) := by
  by_cases h : raw.length > rb.buf_size - rb.contents_size <;>
    simp [RingBuf.write, h]

/-- C2 witness: on a completely full one-page buffer, a one-byte write fails
with the buffer error and changes nothing. -/
theorem write_toosmall_iff_and_noop_witness :
    ((rbFull.write [1]).1 = Except.error (Error.Ours BufError.TooSmall)) ∧
    (rbFull.write [1]).2 = rbFull :=
  ⟨(write_toosmall_iff_and_noop rbFull [1]).1.mpr (by decide),
   (write_toosmall_iff_and_noop rbFull [1]).2 (by decide)⟩

/-- C3: `read` fails with the insufficient-content buffer error exactly when
`num_bytes > contents_size`; a failing `read` leaves the whole state
unchanged; a successful `read` returns the view of exactly `num_bytes` bytes
starting at virtual offset `head`. -/
theorem read_toosmall_iff_and_noop (rb : RingBuf) (num_bytes : Nat) :
    ((rb.read num_bytes).1 = Except.error (Error.Ours BufError.TooSmall) ↔
      num_bytes > rb.contents_size) ∧
    (num_bytes > rb.contents_size → (rb.read num_bytes).2 = rb) ∧
    (num_bytes ≤ rb.contents_size →
      (rb.read num_bytes).1 = Except.ok (rb.readView num_bytes) ∧
      (rb.readView num_bytes).length = num_bytes ∧
      ∀ i, i < num_bytes →
        (rb.readView num_bytes).getD i 0 = rb.data ((rb.head + i) % rb.buf_size)) := by
  by_cases h : num_bytes > rb.contents_size
  · refine ⟨by simp [RingBuf.read, h], fun _ => by simp [RingBuf.read, h], fun hle => ?_⟩
    omega
  · refine ⟨by simp [RingBuf.read, h], fun hgt => absurd hgt h, fun _ => ?_⟩
    exact ⟨by simp [RingBuf.read, h], readView_length rb num_bytes,
      fun i hi => readView_getD rb num_bytes i hi⟩

/-- C3 witness: reading 1 byte from the fresh empty buffer fails and changes
nothing; reading 1 byte from a buffer holding one byte succeeds with the
one-byte view at `head`. -/
theorem read_toosmall_iff_and_noop_witness :
    ((rbInit.read 1).1 = Except.error (Error.Ours BufError.TooSmall)) ∧
    (rbInit.read 1).2 = rbInit ∧
    ((rbOneByte.read 1).1 = Except.ok (rbOneByte.readView 1) ∧
      (rbOneByte.readView 1).length = 1 ∧
      ∀ i, i < 1 →
        (rbOneByte.readView 1).getD i 0 =
          rbOneByte.data ((rbOneByte.head + i) % rbOneByte.buf_size)) :=
  ⟨(read_toosmall_iff_and_noop rbInit 1).1.mpr (by decide),
   (read_toosmall_iff_and_noop rbInit 1).2.1 (by decide),
   (read_toosmall_iff_and_noop rbOneByte 1).2.2 (by decide)⟩

/-- C7: evaluation of the construction at the failing input.  With one page
requested and the first fixed-address `mmap` failing with `ENOMEM` after
`memfd_create`, `ftruncate` and the 2 x buf_size reservation all succeeded,
`new` returns the wrapped OS error and no buffer, and the backing fd is
closed (`OwnedFd` is dropped), but the already-established 2 x buf_size
reservation is still mapped on return: nothing on the error path unmaps it,
contradicting the claim that every acquired resource is released. -/
theorem new_midway_failure_leaks_reserved_mapping :
    RingBuf.new 1 osMmapFirstFails = NewResult.failed (Error.Nix 12) false true :=
  rfl

/-- C8: constructing with `num_pages = 0` always panics in the `.expect` on
`NonZeroUsize::new` — no error value and no buffer is ever produced — and
every buffer `new` does construct has a positive capacity. -/
theorem new_rejects_zero_pages :
    (∀ os, RingBuf.new 0 os = NewResult.panicked) ∧
    (∀ np os rb, RingBuf.new np os = NewResult.ok rb → 0 < rb.buf_size) := by
  constructor
  · intro os; simp [RingBuf.new]
  · intro np os rb h
    obtain ⟨hnp, hrb⟩ := new_ok_eq np os rb h
    rw [hrb]
    exact Nat.mul_pos (Nat.pos_of_ne_zero hnp) (by norm_num)

/-- C8 witness: a fully successful one-page construction returns the fresh
buffer, whose capacity is positive. -/
theorem new_rejects_zero_pages_witness :
    RingBuf.new 1 osAllOk = NewResult.ok rbInit ∧ 0 < rbInit.buf_size :=
  ⟨rfl, new_rejects_zero_pages.2 1 osAllOk rbInit rfl⟩

/-- C4: the bookkeeping predicate — `contents_size ≤ buf_size`, both cursors
in `[0, buf_size)` and `tail = (head + contents_size) % buf_size` — holds for
every state constructed by `new` and is preserved by every `write` and every
`read`, whether the call succeeds or fails. -/
theorem inv_initial_and_preserved :
    (∀ np os rb, RingBuf.new np os = NewResult.ok rb → rb.Inv) ∧
    (∀ (rb : RingBuf) (raw : List Nat), rb.Inv → ((rb.write raw).2).Inv) ∧
    (∀ (rb : RingBuf) (n : Nat), rb.Inv → ((rb.read n).2).Inv) := by
  refine ⟨?_, ?_, ?_⟩
  · intro np os rb h
    obtain ⟨hnp, hrb⟩ := new_ok_eq np os rb h
    have hpos : 0 < np * 4096 := Nat.mul_pos (Nat.pos_of_ne_zero hnp) (by norm_num)
    rw [hrb]
    exact ⟨Nat.zero_le _, hpos, hpos, by simp⟩
  · intro rb raw hInv
    obtain ⟨hcs, hhead, htail, heq⟩ := hInv
    have hcap : 0 < rb.buf_size := Nat.lt_of_le_of_lt (Nat.zero_le _) hhead
    by_cases h : raw.length > rb.buf_size - rb.contents_size
    · simpa [RingBuf.write, h] using ⟨hcs, hhead, htail, heq⟩
    · simp only [RingBuf.write, if_neg h]
      refine ⟨show rb.contents_size + raw.length ≤ rb.buf_size by omega, hhead,
        Nat.mod_lt _ hcap, ?_⟩
      show (rb.tail + raw.length) % rb.buf_size =
        (rb.head + (rb.contents_size + raw.length)) % rb.buf_size
      have hmod :
          ((rb.head + rb.contents_size) % rb.buf_size + raw.length) % rb.buf_size =
            (rb.head + rb.contents_size + raw.length) % rb.buf_size :=
        (Nat.mod_modEq (rb.head + rb.contents_size) rb.buf_size).add_right raw.length
      rw [heq, hmod, Nat.add_assoc]
  · intro rb n hInv
    obtain ⟨hcs, hhead, htail, heq⟩ := hInv
    have hcap : 0 < rb.buf_size := Nat.lt_of_le_of_lt (Nat.zero_le _) hhead
    by_cases h : n > rb.contents_size
    · simpa [RingBuf.read, h] using ⟨hcs, hhead, htail, heq⟩
    · simp only [RingBuf.read, if_neg h]
      refine ⟨show rb.contents_size - n ≤ rb.buf_size by omega,
        Nat.mod_lt _ hcap, htail, ?_⟩
      show rb.tail = ((rb.head + n) % rb.buf_size + (rb.contents_size - n)) % rb.buf_size
      have hmod :
          ((rb.head + n) % rb.buf_size + (rb.contents_size - n)) % rb.buf_size =
            (rb.head + n + (rb.contents_size - n)) % rb.buf_size :=
        (Nat.mod_modEq (rb.head + n) rb.buf_size).add_right (rb.contents_size - n)
      have harith : rb.head + n + (rb.contents_size - n) = rb.head + rb.contents_size := by
        omega
      rw [heq, hmod, harith]

/-- C4 witness: the invariant holds for the fresh one-page buffer, and is
preserved by a concrete write and a concrete read on a one-byte state. -/
theorem inv_initial_and_preserved_witness :
    rbInit.Inv ∧ ((rbOneByte.write [1, 2]).2).Inv ∧ ((rbOneByte.read 1).2).Inv :=
  ⟨inv_initial_and_preserved.1 1 osAllOk rbInit rfl,
   inv_initial_and_preserved.2.1 rbOneByte [1, 2] ⟨by decide, by decide, by decide, by decide⟩,
   inv_initial_and_preserved.2.2 rbOneByte 1 ⟨by decide, by decide, by decide, by decide⟩⟩

/-- C5: from any state satisfying the bookkeeping invariant, writing exactly
`buf_size - contents_size` bytes succeeds and fills the buffer to capacity,
and from the resulting full state any further one-byte write fails with the
insufficient-space buffer error. -/
theorem exact_fit_write_fills_then_full (rb : RingBuf) (hInv : rb.Inv) (raw : List Nat)
    (hlen : raw.length = rb.buf_size - rb.contents_size) :
    (rb.write raw).1 = Except.ok () ∧
    ((rb.write raw).2).contents_size = rb.buf_size ∧
    ∀ b, (((rb.write raw).2).write [b]).1 = Except.error (Error.Ours BufError.TooSmall) := by
  obtain ⟨hcs, hhead, htail, heq⟩ := hInv
  have hnot : ¬ raw.length > rb.buf_size - rb.contents_size := by omega
  refine ⟨by simp [RingBuf.write, hnot], ?_, ?_⟩
  · simp only [RingBuf.write, if_neg hnot]
    omega
  · intro b
    simp only [RingBuf.write, if_neg hnot]
    have hfull : rb.buf_size - (rb.contents_size + raw.length) = 0 := by omega
    simp [hfull]

/-- C5 witness: on a one-page buffer with one free byte, the exact-fit
one-byte write succeeds and fills it, and a further one-byte write fails. -/
theorem exact_fit_write_fills_then_full_witness :
    (rbAlmostFull.write [9]).1 = Except.ok () ∧
    ((rbAlmostFull.write [9]).2).contents_size = rbAlmostFull.buf_size ∧
    (((rbAlmostFull.write [9]).2).write [5]).1 =
      Except.error (Error.Ours BufError.TooSmall) :=
  ⟨(exact_fit_write_fills_then_full rbAlmostFull
      ⟨by decide, by decide, by decide, by decide⟩ [9] (by decide)).1,
   (exact_fit_write_fills_then_full rbAlmostFull
      ⟨by decide, by decide, by decide, by decide⟩ [9] (by decide)).2.1,
   (exact_fit_write_fills_then_full rbAlmostFull
      ⟨by decide, by decide, by decide, by decide⟩ [9] (by decide)).2.2 5⟩

/-- C10: on any state satisfying the bookkeeping invariant, the zero-length
write succeeds and the zero-length read succeeds with the empty view, and
both leave the entire state — `head`, `tail`, `contents_size` and the bytes —
unchanged, also on a completely full or completely empty buffer. -/
theorem zero_length_write_read_noop (rb : RingBuf) (hInv : rb.Inv) :
    (rb.write []).1 = Except.ok () ∧ (rb.write []).2 = rb ∧
    (rb.read 0).1 = Except.ok [] ∧ (rb.read 0).2 = rb := by
  obtain ⟨hcs, hhead, htail, heq⟩ := hInv
  refine ⟨by simp [RingBuf.write], ?_, by simp [RingBuf.read, RingBuf.readView], ?_⟩
  · simp [RingBuf.write, copyToBuf, Nat.mod_eq_of_lt htail]
  · simp [RingBuf.read, Nat.mod_eq_of_lt hhead]

/-- C10 witness: zero-length operations are no-ops on the full buffer and on
a buffer holding one byte. -/
theorem zero_length_write_read_noop_witness :
    ((rbFull.write []).1 = Except.ok () ∧ (rbFull.write []).2 = rbFull ∧
      (rbFull.read 0).1 = Except.ok [] ∧ (rbFull.read 0).2 = rbFull) ∧
    ((rbOneByte.write []).1 = Except.ok () ∧ (rbOneByte.write []).2 = rbOneByte ∧
      (rbOneByte.read 0).1 = Except.ok [] ∧ (rbOneByte.read 0).2 = rbOneByte) :=
  ⟨zero_length_write_read_noop rbFull ⟨by decide, by decide, by decide, by decide⟩,
   zero_length_write_read_noop rbOneByte ⟨by decide, by decide, by decide, by decide⟩⟩

/-- C6 counterexample: a failing write (on the full buffer) and a failing
read (on the empty buffer) return the very same error value
`Error::Ours(BufError::TooSmall)` — the source `BufError` enum has a single
variant, so a buffer-full failure is not distinguishable from a
buffer-underflow failure by the returned error. -/
theorem write_and_read_failures_same_error :
    (rbFull.write [1]).1 = Except.error (Error.Ours BufError.TooSmall) ∧
    (rbInit.read 1).1 = Except.error (Error.Ours BufError.TooSmall) :=
  ⟨rfl, rfl⟩

/-- C6 amended: failures are typed results; the `Error` enum distinguishes a
wrapped OS failure (`Error.Nix`) from a buffer error (`Error.Ours`), and
every failing write and every failing read returns the single buffer-error
value `Error.Ours BufError.TooSmall`, so full-write and underflow-read
failures carry the same error value. -/
theorem error_kinds_amended :
    (∀ (rb : RingBuf) (raw : List Nat), raw.length > rb.buf_size - rb.contents_size →
      (rb.write raw).1 = Except.error (Error.Ours BufError.TooSmall)) ∧
    (∀ (rb : RingBuf) (n : Nat), n > rb.contents_size →
      (rb.read n).1 = Except.error (Error.Ours BufError.TooSmall)) ∧
    (∀ e b, Error.Nix e ≠ Error.Ours b) := by
  refine ⟨?_, ?_, ?_⟩
  · intro rb raw h; simp [RingBuf.write, h]
  · intro rb n h; simp [RingBuf.read, h]
  · intro e b h; exact Error.noConfusion h

/-- C6 amended witness: concrete failing write and read both return the
buffer error, and an OS error value differs from it. -/
theorem error_kinds_amended_witness :
    (rbFull.write [2]).1 = Except.error (Error.Ours BufError.TooSmall) ∧
    (rbInit.read 2).1 = Except.error (Error.Ours BufError.TooSmall) ∧
    Error.Nix 12 ≠ Error.Ours BufError.TooSmall :=
  ⟨error_kinds_amended.1 rbFull [2] (by decide),
   error_kinds_amended.2.1 rbInit 2 (by decide),
   error_kinds_amended.2.2 12 BufError.TooSmall⟩

/-- Core round-trip fact: from an empty state satisfying the invariant,
writing `raw` (with `raw.length ≤ buf_size`) succeeds, and the following
read of `raw.length` bytes succeeds and returns exactly `raw`, including
when the span crosses the capacity boundary of the double-mapped region. -/
theorem write_then_read_aux (rb : RingBuf) (raw : List Nat) (hInv : rb.Inv)
    (hempty : rb.contents_size = 0) (hlen : raw.length ≤ rb.buf_size) :
    (rb.write raw).1 = Except.ok () ∧
    (((rb.write raw).2).read raw.length).1 = Except.ok raw := by
  obtain ⟨hcs, hhead, htail, heq⟩ := hInv
  have htail_head : rb.tail = rb.head := by
    rw [heq, hempty, Nat.add_zero, Nat.mod_eq_of_lt hhead]
  have hnot : ¬ raw.length > rb.buf_size - rb.contents_size := by omega
  refine ⟨by simp [RingBuf.write, hnot], ?_⟩
  simp only [RingBuf.write, if_neg hnot]
  have hrnot : ¬ raw.length > rb.contents_size + raw.length := by omega
  simp only [RingBuf.read, gt_iff_lt]
  rw [if_neg ?hcond]
  case hcond =>
    show ¬ rb.contents_size + raw.length < raw.length
    omega
  show Except.ok (RingBuf.readView _ raw.length) = Except.ok raw
  refine congrArg Except.ok (List.ext_getElem ?_ ?_)
  · simp [RingBuf.readView]
  · intro i h1 h2
    simp only [RingBuf.readView, List.getElem_map, List.getElem_range]
    show copyToBuf rb.buf_size rb.data rb.tail raw ((rb.head + i) % rb.buf_size) = raw[i]
    rw [← htail_head,
      copyToBuf_get rb.buf_size raw rb.data rb.tail i h2 hlen]
    exact List.getD_eq_getElem raw 0 h2

/-- C1 counterexample: a reachable state (invariant holds, write accepted)
where writing `[5]` and then reading 1 byte does not return `[5]`.  The
buffer already holds one unread byte of value 7, and `read` returns the
oldest resident bytes starting at `head`, not the bytes just written. -/
theorem write_then_read_any_state_not_written :
    rbOneByte.Inv ∧
    ([5] : List Nat).length ≤ rbOneByte.buf_size ∧
    (rbOneByte.write [5]).1 = Except.ok () ∧
    (((rbOneByte.write [5]).2).read 1).1 = Except.ok [7] ∧
    ([7] : List Nat) ≠ [5] :=
  ⟨⟨by decide, by decide, by decide, by decide⟩, by decide, rfl, rfl, by decide⟩

/-- C1 amended: for every byte sequence `raw` with `raw.length ≤ buf_size`,
starting from any EMPTY buffer state satisfying the bookkeeping invariant
(so the write is accepted), `write raw` then `read raw.length` both succeed
and the returned view is exactly `raw`, in order, including when the span
crosses the capacity boundary of the double-mapped region. -/
theorem write_then_read_from_empty_returns_written (rb : RingBuf) (raw : List Nat)
    (hInv : rb.Inv) (hempty : rb.contents_size = 0)
    (hlen : raw.length ≤ rb.buf_size) :
    (rb.write raw).1 = Except.ok () ∧
    (((rb.write raw).2).read raw.length).1 = Except.ok raw :=
  write_then_read_aux rb raw hInv hempty hlen

/-- C1 amended witness: on an empty one-page buffer whose cursors sit at
offset 4094, writing `[1, 2, 3]` and reading 3 bytes crosses the 4096-byte
capacity boundary and returns exactly `[1, 2, 3]`. -/
theorem write_then_read_from_empty_boundary_witness :
    (rbNearEnd.write [1, 2, 3]).1 = Except.ok () ∧
    (((rbNearEnd.write [1, 2, 3]).2).read ([1, 2, 3] : List Nat).length).1 =
      Except.ok [1, 2, 3] :=
  write_then_read_from_empty_returns_written rbNearEnd [1, 2, 3]
    ⟨by decide, by decide, by decide, by decide⟩ rfl (by decide)

/-- C9 counterexample: a reachable state (invariant holds, write accepted)
where the typed write of the byte value 5 followed by the typed read does
not return 5: the buffer already holds one unread byte of value 7, and the
typed read reinterprets the oldest resident bytes, not the value just
written. -/
theorem typed_roundtrip_any_state_not_value :
    rbOneByte.Inv ∧
    (rbOneByte.write_typed podU8 5).1 = Except.ok () ∧
    (((rbOneByte.write_typed podU8 5).2).read_typed podU8).1 = Except.ok (7 : Fin 256) ∧
    (7 : Fin 256) ≠ 5 :=
  ⟨⟨by decide, by decide, by decide, by decide⟩, rfl, rfl, by decide⟩

/-- C9 amended: for every padding-free fixed-layout type and value `v`,
starting from any EMPTY buffer state satisfying the bookkeeping invariant
whose capacity admits the value, the typed write succeeds and the typed read
returns a value bit-identical to `v`; moreover the typed wrappers add no
failure modes: a typed write returns exactly what the underlying byte write
returns, and a typed read fails with error `e` exactly when the underlying
byte read of `size` bytes fails with `e`. -/
theorem typed_roundtrip_from_empty {α : Type} (pod : PodType α) (rb : RingBuf)
    (hInv : rb.Inv) (hempty : rb.contents_size = 0) (hsize : pod.size ≤ rb.buf_size)
    (v : α) :
    (rb.write_typed pod v).1 = Except.ok () ∧
    (((rb.write_typed pod v).2).read_typed pod).1 = Except.ok v ∧
    (∀ (rb2 : RingBuf) (w : α),
      (rb2.write_typed pod w).1 = (rb2.write (pod.as_u8_slice w)).1) ∧
    (∀ (rb2 : RingBuf) (e : Error),
      (rb2.read_typed pod).1 = Except.error e ↔ (rb2.read pod.size).1 = Except.error e) := by
  have hlenv : (pod.as_u8_slice v).length = pod.size := pod.length_as_u8_slice v
  have haux := write_then_read_aux rb (pod.as_u8_slice v) hInv hempty
    (by rw [hlenv]; exact hsize)
  refine ⟨haux.1, ?_, fun rb2 w => rfl, fun rb2 e => ?_⟩
  · have h2 := haux.2
    rw [hlenv] at h2
    show (((rb.write (pod.as_u8_slice v)).2).read pod.size).1.map pod.fromBytes =
      Except.ok v
    rw [h2]
    simp [Except.map, pod.fromBytes_as_u8_slice]
  · cases hcase : (rb2.read pod.size).1 <;>
      simp [RingBuf.read_typed, hcase, Except.map]

/-- C9 amended witness: on the empty near-boundary one-page buffer, the typed
write of the byte value 5 followed by the typed read returns exactly 5. -/
theorem typed_roundtrip_from_empty_witness :
    (rbNearEnd.write_typed podU8 5).1 = Except.ok () ∧
    (((rbNearEnd.write_typed podU8 5).2).read_typed podU8).1 = Except.ok (5 : Fin 256) :=
  ⟨(typed_roundtrip_from_empty podU8 rbNearEnd
      ⟨by decide, by decide, by decide, by decide⟩ rfl (by decide) 5).1,
   (typed_roundtrip_from_empty podU8 rbNearEnd
      ⟨by decide, by decide, by decide, by decide⟩ rfl (by decide) 5).2.1⟩
